import Mathlib

/-!
# Verification of the win-port-kill port-table logic

Shallow embedding of the port-management logic of `port_manager.py`
(the plain variant at `src/port_manager.py` and the Windows variant at
`src/Windows版本/port_manager.py`), together with theorems settling the
frozen claims about it.

Strings are modelled as `List Char`.  Python string primitives
(`str.split`, `str.strip`, `in`-substring test, `int(...)`,
`str.isdigit`) are embedded below; `int(...)` is modelled on
optional-sign ASCII digit strings, the forms the program actually
manipulates (netstat tokens); exotic Python numerals (unicode digits,
underscores) are outside the model.
-/

namespace WinPortKill

/-- Whitespace characters for Python `str.split()` / `str.strip()`. -/
def isWs (c : Char) : Bool :=
  c = ' ' || c = '\t' || c = '\n' || c = '\r' || c = '\x0b' || c = '\x0c'

/-- Python `str.strip()`: drop leading and trailing whitespace. -/
def pyStrip (s : List Char) : List Char :=
  ((s.dropWhile isWs).reverse.dropWhile isWs).reverse

/-- Helper for `pySplitWs`: accumulates the current token (reversed). -/
def pySplitWsAux : List Char → List Char → List (List Char)
  | [], cur => if cur = [] then [] else [cur.reverse]
  | c :: rest, cur =>
    if isWs c then
      if cur = [] then pySplitWsAux rest []
      else cur.reverse :: pySplitWsAux rest []
    else pySplitWsAux rest (c :: cur)

/-- Python `str.split()` with no argument: split on whitespace runs,
no empty tokens. -/
def pySplitWs (s : List Char) : List (List Char) :=
  pySplitWsAux s []

/-- Helper for `pySplitSep`. -/
def pySplitSepAux (sep : Char) : List Char → List Char → List (List Char)
  | [], cur => [cur.reverse]
  | c :: rest, cur =>
    if c = sep then cur.reverse :: pySplitSepAux sep rest []
    else pySplitSepAux sep rest (c :: cur)

/-- Python `str.split(sep)`: split on a separator character, keeping
empty tokens. -/
def pySplitSep (sep : Char) (s : List Char) : List (List Char) :=
  pySplitSepAux sep s []

/-- Python `pat in s` substring test. -/
def containsSub (pat : List Char) : List Char → Bool
  | [] => pat.isEmpty
  | c :: rest => pat.isPrefixOf (c :: rest) || containsSub pat rest

/-- Python `s.split(sep, 1)` when `sep in s`: the parts before and after
the first occurrence of `sep`; `none` when `sep` does not occur. -/
def pySplitFirst (sep : Char) : List Char → Option (List Char × List Char)
  | [] => none
  | c :: rest =>
    if c = sep then some ([], rest)
    else (pySplitFirst sep rest).map (fun p => (c :: p.1, p.2))

/-- Numeric value of an ASCII digit. -/
def digitVal (c : Char) : Option Nat :=
  if '0' ≤ c && c ≤ '9' then some (c.toNat - 48) else none

/-- Value of a nonempty all-digit string. -/
def digitsVal (l : List Char) : Option Nat :=
  if l = [] then none
  else l.foldl
    (fun acc c =>
      match acc, digitVal c with
      | some n, some d => some (n * 10 + d)
      | _, _ => none)
    (some 0)

/-- Python `int(s)` on the string forms the program manipulates:
surrounding whitespace stripped, optional single sign, nonempty digit
run; `none` models `ValueError`. -/
def pyInt (s : List Char) : Option Int :=
  match pyStrip s with
  | '+' :: rest => (digitsVal rest).map Int.ofNat
  | '-' :: rest => (digitsVal rest).map (fun n => -(n : Int))
  | t => (digitsVal t).map Int.ofNat

/-- Python `s.isdigit()` restricted to ASCII digits. -/
def pyIsDigit (s : List Char) : Bool :=
  !s.isEmpty && s.all (fun c => '0' ≤ c && c ≤ '9')

/-- Python `str(n)` for a nonnegative integer. -/
def natRepr (n : Nat) : List Char :=
  (Nat.repr n).data

/-- Embedding of `parse_port_range` of the Windows variant
(`src/Windows版本/port_manager.py:795-821`).

```
port_str = port_str.strip()
if '-' in port_str:
    start, end = port_str.split('-', 1)
    start_port = int(start.strip()); end_port = int(end.strip())
    if 1 <= start_port <= 65535 and 1 <= end_port <= 65535:
        return (start_port, end_port)
    else: return None            # out-of-range error popup
  except ValueError: return None # format error popup
else:
    port = int(port_str)
    if 1 <= port <= 65535: return (port, port)
    else: return None
  except ValueError: return None
```
`none` models the `return None` paths (an error dialog is scheduled and
the value is discarded).
-/
def parse_port_range (s : List Char) : Option (Int × Int) :=
  let t := pyStrip s
  match pySplitFirst '-' t with
  | some (a, b) =>
    match pyInt (pyStrip a), pyInt (pyStrip b) with
    | some sp, some ep =>
      if 1 ≤ sp && sp ≤ 65535 && 1 ≤ ep && ep ≤ 65535 then some (sp, ep)
      else none
    | _, _ => none
  | none =>
    match pyInt t with
    | some p => if 1 ≤ p && p ≤ 65535 then some (p, p) else none
    | none => none

/-- The literal `"LISTENING"`. -/
def LISTENINGs : List Char := ['L', 'I', 'S', 'T', 'E', 'N', 'I', 'N', 'G']

/-- The literal `"ESTABLISHED"`. -/
def ESTABLISHEDs : List Char :=
  ['E', 'S', 'T', 'A', 'B', 'L', 'I', 'S', 'H', 'E', 'D']

/-- One row of the refreshed port table: the `(port, local_address, pid)`
triple appended to `listening_ports` by `_refresh_all_thread` (strings,
exactly as the code stores them). -/
structure PortEntry where
  port : List Char
  localAddr : List Char
  pid : List Char
deriving DecidableEq, Repr

/-- Per-line parsing of `_refresh_all_thread`, identical in the plain
variant (`src/port_manager.py:529-556`) and the Windows variant
(`src/Windows版本/port_manager.py:1106-1140`):

```
if not line.strip() or line.startswith('TCP') or line.startswith('UDP'):
    continue
if 'LISTENING' in line:
    parts = line.split()
    if len(parts) >= 5 and parts[4]:
        pid = parts[4]; local_address = parts[1]
        if ':' in local_address:
            port = local_address.split(':')[-1]
            port_num = int(port)               # ValueError -> skip line
            if 1 <= port_num <= 65535:
                keep (port, local_address, pid)
```
-/
def parseListenLine (line : List Char) : Option PortEntry :=
  if pyStrip line = [] || ['T', 'C', 'P'].isPrefixOf line
      || ['U', 'D', 'P'].isPrefixOf line then
    none
  else if containsSub LISTENINGs line then
    let parts := pySplitWs line
    if 5 ≤ parts.length then
      let localAddr := parts.getD 1 []
      let pid := parts.getD 4 []
      if pid = [] then none
      else if containsSub [':'] localAddr then
        let port := (pySplitSep ':' localAddr).getLastD []
        match pyInt port with
        | some n =>
          if 1 ≤ n && n ≤ 65535 then some ⟨port, localAddr, pid⟩ else none
        | none => none
      else none
    else none
  else none

/-- Embedding of `_refresh_all_thread` of the plain variant
(`src/port_manager.py:529-556`): every accepted line contributes one
entry, with no deduplication. -/
def refreshAllPlain (lines : List (List Char)) : List PortEntry :=
  lines.filterMap parseListenLine

/-- The dedup key of the Windows `_refresh_all_thread`: `key = (port, pid)`
(`src/Windows版本/port_manager.py:1126`), both kept as strings. -/
def winKey (e : PortEntry) : List Char × List Char :=
  (e.port, e.pid)

/-- The `seen`-set loop of the Windows `_refresh_all_thread`
(`src/Windows版本/port_manager.py:1108-1140`): an accepted line is kept
only if its `(port, pid)` key was not seen before. -/
def refreshWinGo (seen : List (List Char × List Char)) :
    List (List Char) → List PortEntry
  | [] => []
  | line :: rest =>
    match parseListenLine line with
    | none => refreshWinGo seen rest
    | some e =>
      if winKey e ∈ seen then refreshWinGo seen rest
      else e :: refreshWinGo (winKey e :: seen) rest

/-- Embedding of `_refresh_all_thread` of the Windows variant: parse, dedup by
`(port, pid)`, first occurrence wins. -/
def refreshAllWin (lines : List (List Char)) : List PortEntry :=
  refreshWinGo [] lines

/-- The `seen`-set pass of the Windows dedup, separated from line
parsing: keep an entry only when its `(port, pid)` key is new, first
occurrence winning. -/
def dedupSeen (seen : List (List Char × List Char)) :
    List PortEntry → List PortEntry
  | [] => []
  | e :: rest =>
    if winKey e ∈ seen then dedupSeen seen rest
    else e :: dedupSeen (winKey e :: seen) rest

/-- Sort key of `listening_ports.sort(key=lambda x: int(x[0]) if
x[0].isdigit() else 999999)` (`src/port_manager.py:560`,
`src/Windows版本/port_manager.py:1145`). -/
def sortKey (e : PortEntry) : Nat :=
  if pyIsDigit e.port then (digitsVal e.port).getD 0 else 999999

/-- The comparison `list.sort` uses: ascending by `sortKey`. -/
def keyLE (a b : PortEntry) : Prop :=
  sortKey a ≤ sortKey b

instance : DecidableRel keyLE := fun x y => Nat.decLe (sortKey x) (sortKey y)

/-- Python's `list.sort` is a stable ascending sort; any stable
ascending sort computes the same list, so it is embedded as insertion
sort by `sortKey`. -/
def pySortByKey (l : List PortEntry) : List PortEntry :=
  l.insertionSort keyLE

/-- The full refresh of the plain variant: parse then stable-sort by
`sortKey` (`src/port_manager.py:556-560`). -/
def fullTablePlain (lines : List (List Char)) : List PortEntry :=
  pySortByKey (refreshAllPlain lines)

/-- The full refresh of the Windows variant: parse with dedup then
stable-sort by `sortKey` (`src/Windows版本/port_manager.py:1140-1145`). -/
def fullTableWin (lines : List (List Char)) : List PortEntry :=
  pySortByKey (refreshAllWin lines)

/-- One row reported by `_query_port_thread`: the
`(local_address, foreign_address, state, pid)` fields of a matched
netstat line. -/
structure QueryEntry where
  localAddr : List Char
  foreignAddr : List Char
  state : List Char
  pid : List Char
deriving DecidableEq, Repr

/-- Embedding of `_query_port_thread` of the plain variant
(`src/port_manager.py:341-380`), restricted to its data flow:

```
for line in lines:
    if f':{port}' in line and ('LISTENING' in line or 'ESTABLISHED' in line):
        parts = line.split()
        if len(parts) >= 5:
            local_address, foreign_address, state, pid = parts[1:5]
            int(pid)            # ValueError -> skip the record
            keep the record
```
The match is the Python substring test `f':{port}' in line`.
-/
def queryPortPlain (port : Nat) (lines : List (List Char)) :
    List QueryEntry :=
  lines.filterMap fun line =>
    if containsSub (':' :: natRepr port) line
        && (containsSub LISTENINGs line || containsSub ESTABLISHEDs line) then
      let parts := pySplitWs line
      if 5 ≤ parts.length then
        if (pyInt (parts.getD 4 [])).isSome then
          some ⟨parts.getD 1 [], parts.getD 2 [], parts.getD 3 [],
                parts.getD 4 []⟩
        else none
      else none
    else none

/-- Embedding of `add_to_history` (`src/port_manager.py:788-805`,
`src/Windows版本/port_manager.py:1557-1568`), with
`MAX_HISTORY = 10` in both variants:

```
if port in self.port_history: self.port_history.remove(port)
self.port_history.insert(0, port)
if len(self.port_history) > MAX_HISTORY:
    self.port_history = self.port_history[:MAX_HISTORY]
```
`list.remove` removes the first occurrence, as `List.erase` does.
-/
def add_to_history (port : List Char) (hist : List (List Char)) :
    List (List Char) :=
  let h := if port ∈ hist then hist.erase port else hist
  let h2 := port :: h
  if h2.length > 10 then h2.take 10 else h2

/-- On-disk state of the history file, as `load_port_history`
distinguishes it: the file may be absent, `open` may raise `OSError`,
`json.load` may raise on malformed JSON (modelled as `present none`),
or the file holds a JSON list of strings. -/
inductive HistoryFile where
  | missing
  | unreadable
  | present (json : Option (List (List Char)))
deriving DecidableEq, Repr

/-- Embedding of `load_port_history` (`src/port_manager.py:769-778`,
`src/Windows版本/port_manager.py:1538-1547`):

```
try:
    if self.history_file.exists():
        with open(...) as f: return json.load(f)
    return []                    # missing file
except Exception: return []      # open or json.load raised
```
-/
def load_port_history : HistoryFile → List (List Char)
  | .missing => []
  | .unreadable => []
  | .present none => []
  | .present (some l) => l

/-- The behaviour of one OS process against the psutil calls the
terminate path makes, modelled as an oracle: whether `psutil.Process(pid)`
finds the process, whether `terminate()` raises `AccessDenied`, whether
the process exits within the 5-second graceful wait, and whether it
exits within the 3-second post-kill wait. -/
structure ProcBehavior where
  found : Bool
  accessDenied : Bool
  gracefulWithin5 : Bool
  forcedWithin3 : Bool
deriving DecidableEq, Repr

/-- psutil calls issued by the terminate path, in order. -/
inductive OsCall where
  | getProc
  | terminate
  | waitUpTo (seconds : Nat)
  | kill
deriving DecidableEq, Repr

/-- Per-pid outcome reported (logged) by the terminate path. -/
inductive KillOutcome where
  | gracefulOk
  | forcedOk
  | forcedTimeout
  | notFound
  | accessDenied
deriving DecidableEq, Repr

/-- Embedding of `_terminate_process` (`src/Windows版本/port_manager.py:1067-1089`); the
per-pid body of `_kill_process_thread` (`src/port_manager.py:461-484`)
and `_kill_by_pid_thread` (`src/port_manager.py:679-721`) are the same
call sequence:

```
try:
    process = psutil.Process(int(pid))      # NoSuchProcess -> not found
    process.terminate()                     # AccessDenied caught below
    try:
        process.wait(timeout=5)             # graceful ok
    except psutil.TimeoutExpired:
        process.kill()
        process.wait(timeout=3)             # TimeoutExpired -> outer except
except (psutil.NoSuchProcess, psutil.AccessDenied): log error
except Exception: log error
```
Returns the psutil call trace and the reported outcome; every exception
is caught inside, so the function is total (never raises to its caller).
-/
def terminateProcess (b : ProcBehavior) : List OsCall × KillOutcome :=
  if !b.found then
    ([.getProc], .notFound)
  else if b.accessDenied then
    ([.getProc, .terminate], .accessDenied)
  else if b.gracefulWithin5 then
    ([.getProc, .terminate, .waitUpTo 5], .gracefulOk)
  else if b.forcedWithin3 then
    ([.getProc, .terminate, .waitUpTo 5, .kill, .waitUpTo 3], .forcedOk)
  else
    ([.getProc, .terminate, .waitUpTo 5, .kill, .waitUpTo 3],
     .forcedTimeout)

/-- The batch loop `for pid in pids: self._terminate_process(pid)`
(`src/Windows版本/port_manager.py:1033-1034`; the plain variant's loop
at `src/port_manager.py:461-484` likewise catches per-pid exceptions and
continues): each pid is handled independently by the total function
`terminateProcess`, so no pid's failure can abort the rest. -/
def killBatch (env : Nat → ProcBehavior) (pids : List Nat) :
    List (Nat × KillOutcome) :=
  pids.map fun p => (p, (terminateProcess (env p)).2)

/-- Monitor-related state of the Windows GUI object: the
`monitoring_active` flag and the port the active session targets. -/
structure MonitorState where
  active : Bool
  port : Option Int
deriving DecidableEq, Repr

/-- Result of a `start_monitoring` call. -/
inductive StartResult where
  | ignored
  | emptyInput
  | invalidRange
  | multiPort
  | started (port : Int)
deriving DecidableEq, Repr

/-- Embedding of `start_monitoring` (`src/Windows版本/port_manager.py:1674-1706`):

```
if self.monitoring_active: return            # ignored, nothing shown
port_str = self.port_var.get().strip()
if not port_str: warning; return
port_range = self.parse_port_range(port_str)
if port_range is None: return                # error already shown
start_port, end_port = port_range
if start_port != end_port: warning "单个端口"; return
self.monitoring_active = True; start thread on start_port
```
-/
def start_monitoring (st : MonitorState) (input : List Char) :
    StartResult × MonitorState :=
  if st.active then (.ignored, st)
  else if pyStrip input = [] then (.emptyInput, st)
  else
    match parse_port_range (pyStrip input) with
    | none => (.invalidRange, st)
    | some (a, b) =>
      if a ≠ b then (.multiPort, st)
      else (.started a, ⟨true, some a⟩)

/-- Python `str(i)` for the integers the code renders. -/
def intRepr (i : Int) : List Char :=
  if i < 0 then '-' :: natRepr i.natAbs else natRepr i.toNat

/-- Embedding of `query_port` of the Windows variant
(`src/Windows版本/port_manager.py:823-841`), restricted to its effect on
the history list:

```
port_str = self.port_entry.get().strip()
if not port_str: warning; return
port_range = self.parse_port_range(port_str)
if port_range is None: return
start_port, end_port = port_range
if start_port == end_port:
    self.add_to_history(str(start_port))
threading.Thread(target=self._query_port_thread, ...)
```
Returns the parsed range (if any) and the history after the call.
-/
def query_port (input : List Char) (hist : List (List Char)) :
    Option (Int × Int) × List (List Char) :=
  let s := pyStrip input
  if s = [] then (none, hist)
  else
    match parse_port_range s with
    | none => (none, hist)
    | some (a, b) =>
      if a = b then (some (a, b), add_to_history (intRepr a) hist)
      else (some (a, b), hist)

/-! ## Shared lemmas -/

theorem dropWhile_eq_self_of (p : Char → Bool) (s : List Char)
    (h : ∀ c ∈ s, p c = false) : s.dropWhile p = s := by
  cases s with
  | nil => rfl
  | cons c t => simp [List.dropWhile_cons, h c (by simp)]

theorem pyStrip_eq_self (s : List Char)
    (h : ∀ c ∈ s, isWs c = false) : pyStrip s = s := by
  unfold pyStrip
  rw [dropWhile_eq_self_of _ _ h,
    dropWhile_eq_self_of _ _ (fun c hc => h c (List.mem_reverse.mp hc)),
    List.reverse_reverse]

theorem pySplitFirst_append (sep : Char) (sa sb : List Char)
    (h : sep ∉ sa) :
    pySplitFirst sep (sa ++ sep :: sb) = some (sa, sb) := by
  induction sa with
  | nil => simp [pySplitFirst]
  | cons c t ih =>
    have hc : ¬(c = sep) := fun hcs => h (hcs ▸ List.mem_cons_self c t)
    have ih2 := ih (fun hm => h (List.mem_cons_of_mem c hm))
    simp only [List.cons_append, pySplitFirst, if_neg hc, List.append_eq,
      ih2]
    rfl

theorem parse_port_range_nil : parse_port_range [] = none := rfl

/-! ## C1 -/

/-- C1: the claim says a reversed in-range expression such as
`"9000-8000"` is rejected as invalid input.  In the code it is not:
`parse_port_range` checks only that both endpoints are numeric and in
`1..65535` and returns the reversed pair `(9000, 8000)` unchanged. -/
theorem C1_counterexample :
    parse_port_range "9000-8000".data = some (9000, 8000) ∧
      parse_port_range "9000-8000".data ≠ none := by
  refine ⟨by decide, ?_⟩
  decide

/-- C1 amended: an expression `a-b` whose two sides are numeric
(whitespace-free, the left side dash-free) and whose values both lie in
`1..65535` is always accepted as the ordered pair `(a, b)`, with no
requirement that `a ≤ b`; rejection happens only for non-numeric or
out-of-range endpoints. -/
theorem C1_range_accepted_without_order_check (a b : Int)
    (sa sb : List Char)
    (ha : pyInt sa = some a) (hb : pyInt sb = some b)
    (hsa : ∀ c ∈ sa, isWs c = false) (hsb : ∀ c ∈ sb, isWs c = false)
    (hdash : '-' ∉ sa)
    (h1 : 1 ≤ a) (h2 : a ≤ 65535) (h3 : 1 ≤ b) (h4 : b ≤ 65535) :
    parse_port_range (sa ++ '-' :: sb) = some (a, b) := by
  have hws : ∀ c ∈ sa ++ '-' :: sb, isWs c = false := by
    intro c hc
    rcases List.mem_append.mp hc with h | h
    · exact hsa c h
    · rcases List.mem_cons.mp h with h | h
      · subst h; decide
      · exact hsb c h
  have hstrip : pyStrip (sa ++ '-' :: sb) = sa ++ '-' :: sb :=
    pyStrip_eq_self _ hws
  have hsa2 : pyStrip sa = sa := pyStrip_eq_self _ hsa
  have hsb2 : pyStrip sb = sb := pyStrip_eq_self _ hsb
  simp only [parse_port_range, hstrip, pySplitFirst_append '-' sa sb hdash,
    hsa2, hsb2, ha, hb]
  have hcond : (1 ≤ a && a ≤ 65535 && (1 ≤ b) && b ≤ 65535) = true := by
    simp only [Bool.and_eq_true, decide_eq_true_eq]
    exact ⟨⟨⟨h1, h2⟩, h3⟩, h4⟩
  simp [hcond]

/-- C1 amended, witnessed at the reversed range `9000-8000` itself. -/
theorem C1_range_accepted_without_order_check_witness :
    pyInt "9000".data = some 9000 ∧ (9000 : Int) > 8000 ∧
      parse_port_range ("9000".data ++ '-' :: "8000".data) =
        some (9000, 8000) :=
  ⟨by decide, by decide,
    C1_range_accepted_without_order_check 9000 8000 "9000".data "8000".data
      (by decide) (by decide) (by decide) (by decide) (by decide)
      (by decide) (by decide) (by decide) (by decide)⟩

/-! ## C2 -/

/-- C2: the claim says a single-port query for `p` returns only records
whose port equals `p`.  The code matches with the substring test
`f':{port}' in line`, so the query for port `80` also returns the record
of port `8080`: on a netstat line listening on `0.0.0.0:8080`, the query
for `80` returns that record (its local port parses as `8080`, not
`80`). -/
theorem C2_substring_match_includes_other_ports :
    queryPortPlain 80
        ["  TCP    0.0.0.0:8080    0.0.0.0:0    LISTENING    1234".data] =
      [⟨"0.0.0.0:8080".data, "0.0.0.0:0".data, "LISTENING".data,
        "1234".data⟩] ∧
      pyInt ((pySplitSep ':' "0.0.0.0:8080".data).getLastD []) =
        some 8080 ∧
      (8080 : Int) ≠ 80 := by
  refine ⟨by decide, by decide, by decide⟩

/-! ## C8 -/

/-- C8: the claim says starting the monitor while a session is active
implicitly stops the old session and starts the new one, never silently
ignoring the request.  In the code `start_monitoring` begins with
`if self.monitoring_active: return`, so with a session active on port 80
a request for port 9090 is dropped with no effect and no message: the
old session keeps running and nothing is started. -/
theorem C8_counterexample :
    start_monitoring ⟨true, some 80⟩ "9090".data =
        (.ignored, ⟨true, some 80⟩) ∧
      (start_monitoring ⟨true, some 80⟩ "9090".data).2.port ≠ some 9090 := by
  refine ⟨by decide, by decide⟩

/-- C8 amended: while a session is active every start request is
silently ignored and the session state is unchanged (the old session is
not stopped, the new port is not monitored).  With no session active:
empty input warns; a non-numeric or out-of-range expression fails with
an invalid-port error; a multi-port range fails with a single-port-only
warning; a valid single port starts the session on that port. -/
theorem C8_start_monitoring_behaviour (st : MonitorState)
    (input : List Char) :
    (st.active = true → start_monitoring st input = (.ignored, st)) ∧
    (st.active = false → pyStrip input = [] →
      start_monitoring st input = (.emptyInput, st)) ∧
    (st.active = false → pyStrip input ≠ [] →
      parse_port_range (pyStrip input) = none →
      start_monitoring st input = (.invalidRange, st)) ∧
    (∀ a b : Int, st.active = false →
      parse_port_range (pyStrip input) = some (a, b) → a ≠ b →
      start_monitoring st input = (.multiPort, st)) ∧
    (∀ a : Int, st.active = false →
      parse_port_range (pyStrip input) = some (a, a) →
      start_monitoring st input = (.started a, ⟨true, some a⟩)) := by
  refine ⟨?_, ?_, ?_, ?_, ?_⟩
  · intro h; simp [start_monitoring, h]
  · intro h h0; simp [start_monitoring, h, h0]
  · intro h h0 hp; simp [start_monitoring, h, h0, hp]
  · intro a b h hp hab
    have h0 : pyStrip input ≠ [] := by
      intro he; rw [he, parse_port_range_nil] at hp; exact Option.noConfusion hp
    simp [start_monitoring, h, h0, hp, hab]
  · intro a h hp
    have h0 : pyStrip input ≠ [] := by
      intro he; rw [he, parse_port_range_nil] at hp; exact Option.noConfusion hp
    simp [start_monitoring, h, h0, hp]

/-- C8 amended, witnessed: a multi-port range is refused, an active
session swallows a new request, and a valid single port starts. -/
theorem C8_start_monitoring_witness :
    start_monitoring ⟨false, none⟩ "8000-9000".data =
        (.multiPort, ⟨false, none⟩) ∧
      start_monitoring ⟨true, some 80⟩ "9090".data =
        (.ignored, ⟨true, some 80⟩) ∧
      start_monitoring ⟨false, none⟩ "8080".data =
        (.started 8080, ⟨true, some 8080⟩) :=
  ⟨(C8_start_monitoring_behaviour ⟨false, none⟩ "8000-9000".data).2.2.2.1
      8000 9000 rfl (by decide) (by decide),
    (C8_start_monitoring_behaviour ⟨true, some 80⟩ "9090".data).1 rfl,
    (C8_start_monitoring_behaviour ⟨false, none⟩ "8080".data).2.2.2.2
      8080 rfl (by decide)⟩

/-! ## C9 -/

/-- C9: a missing, unreadable, or malformed history file always loads as
the empty history; every such failure path of `load_port_history` falls
into a `return []`, never a raised error. -/
theorem C9_failed_history_loads_empty (fs : HistoryFile)
    (h : fs = .missing ∨ fs = .unreadable ∨ fs = .present none) :
    load_port_history fs = [] := by
  rcases h with h | h | h <;> subst h <;> rfl

/-- C9 witnessed on all three failure states. -/
theorem C9_failed_history_loads_empty_witness :
    load_port_history .missing = [] ∧
      load_port_history .unreadable = [] ∧
      load_port_history (.present none) = [] :=
  ⟨C9_failed_history_loads_empty .missing (Or.inl rfl),
    C9_failed_history_loads_empty .unreadable (Or.inr (Or.inl rfl)),
    C9_failed_history_loads_empty (.present none) (Or.inr (Or.inr rfl))⟩

/-! ## C10 -/

/-- C10: running a query whose expression parses to a true range
(`a ≠ b`) leaves the query history unchanged; `query_port` adds to the
history only when `start_port == end_port`. -/
theorem C10_range_query_preserves_history (input : List Char)
    (hist : List (List Char)) (a b : Int)
    (hp : parse_port_range (pyStrip input) = some (a, b)) (hab : a ≠ b) :
    query_port input hist = (some (a, b), hist) := by
  have h0 : pyStrip input ≠ [] := by
    intro he; rw [he, parse_port_range_nil] at hp; exact Option.noConfusion hp
  simp [query_port, h0, hp, hab]

/-- C10 witnessed at the range `8000-9000` over a one-element history. -/
theorem C10_range_query_preserves_history_witness :
    query_port "8000-9000".data ["80".data] =
      (some (8000, 9000), ["80".data]) :=
  C10_range_query_preserves_history "8000-9000".data ["80".data]
    8000 9000 (by decide) (by decide)

/-! ## C5 -/

/-- C5: after any insertion the history holds at most 10 expressions
(`MAX_HISTORY`), and inserting an expression already present — from a
state within capacity, as every state produced by insertions is — moves
it to the front (dropping its old occurrence) without changing the
length. -/
theorem C5_history_capacity_and_move_to_front (port : List Char)
    (hist : List (List Char)) :
    (add_to_history port hist).length ≤ 10 ∧
      (port ∈ hist → hist.length ≤ 10 →
        add_to_history port hist = port :: hist.erase port ∧
          (add_to_history port hist).length = hist.length) := by
  constructor
  · unfold add_to_history
    by_cases hlen :
        (port :: if port ∈ hist then hist.erase port else hist).length > 10
    · rw [if_pos hlen, List.length_take]
      exact min_le_left _ _
    · rw [if_neg hlen]; omega
  · intro hmem hlen
    have herase : (hist.erase port).length = hist.length - 1 :=
      List.length_erase_of_mem hmem
    have hpos : 0 < hist.length := List.length_pos_of_mem hmem
    have h2len : (port :: hist.erase port).length = hist.length := by
      simp only [List.length_cons, herase]; omega
    unfold add_to_history
    rw [if_pos hmem]
    have hno : ¬((port :: hist.erase port).length > 10) := by
      rw [h2len]; omega
    rw [if_neg hno]
    exact ⟨rfl, h2len⟩

/-- C5 witnessed: inserting `"80"`, already present in a two-element
history, keeps the length at 2 (≤ 10) and moves it to the front. -/
theorem C5_history_capacity_witness :
    (add_to_history "80".data ["1".data, "80".data]).length ≤ 10 ∧
      add_to_history "80".data ["1".data, "80".data] =
        "80".data :: (["1".data, "80".data].erase "80".data) ∧
      (add_to_history "80".data ["1".data, "80".data]).length =
        (["1".data, "80".data] : List (List Char)).length :=
  ⟨(C5_history_capacity_and_move_to_front "80".data
      ["1".data, "80".data]).1,
    ((C5_history_capacity_and_move_to_front "80".data
      ["1".data, "80".data]).2 (by decide) (by decide)).1,
    ((C5_history_capacity_and_move_to_front "80".data
      ["1".data, "80".data]).2 (by decide) (by decide)).2⟩

/-! ## C6 -/

/-- C6: for every process behaviour, the psutil call trace of the
terminate path is one of four prefixes of the full escalation sequence;
a forceful `kill` occurs only in the exact sequence
`Process(pid); terminate(); wait(5); kill(); wait(3)` — that is, only
after a graceful terminate and a timed-out 5-second wait, and it is
always followed by a wait bounded by 3 seconds; when the graceful wait
succeeds the trace stops at `wait(5)` with a graceful outcome, and when
it times out (process found, no access error) the kill is reached. -/
theorem C6_graceful_then_forceful_with_bounds (b : ProcBehavior) :
    ((terminateProcess b).1 = [.getProc] ∨
      (terminateProcess b).1 = [.getProc, .terminate] ∨
      (terminateProcess b).1 = [.getProc, .terminate, .waitUpTo 5] ∨
      (terminateProcess b).1 =
        [.getProc, .terminate, .waitUpTo 5, .kill, .waitUpTo 3]) ∧
    (OsCall.kill ∈ (terminateProcess b).1 →
      (terminateProcess b).1 =
        [.getProc, .terminate, .waitUpTo 5, .kill, .waitUpTo 3]) ∧
    (b.found = true → b.accessDenied = false → b.gracefulWithin5 = true →
      terminateProcess b =
        ([.getProc, .terminate, .waitUpTo 5], .gracefulOk)) ∧
    (b.found = true → b.accessDenied = false →
      b.gracefulWithin5 = false → OsCall.kill ∈ (terminateProcess b).1) := by
  rcases b with ⟨f, ad, g, w⟩
  cases f <;> cases ad <;> cases g <;> cases w <;> decide

/-- C6 witnessed: a process that stops gracefully yields the graceful
trace; one that ignores the graceful stop reaches the forceful kill. -/
theorem C6_graceful_then_forceful_witness :
    terminateProcess ⟨true, false, true, true⟩ =
        ([.getProc, .terminate, .waitUpTo 5], .gracefulOk) ∧
      OsCall.kill ∈ (terminateProcess ⟨true, false, false, true⟩).1 :=
  ⟨(C6_graceful_then_forceful_with_bounds ⟨true, false, true, true⟩).2.2.1
      rfl rfl rfl,
    (C6_graceful_then_forceful_with_bounds
      ⟨true, false, false, true⟩).2.2.2 rfl rfl rfl⟩

/-! ## C7 -/

/-- C7: a pid whose process is not found gets the `notFound` outcome
(the `NoSuchProcess` branch logs and returns, it does not re-raise), and
the batch still produces an outcome for every pid in it — one pid's
failure never aborts the rest.  `terminateProcess` is a total function:
every psutil exception is caught inside it. -/
theorem C7_missing_pid_reports_not_found (env : Nat → ProcBehavior)
    (pids : List Nat) (p : Nat)
    (hmiss : (env p).found = false) (hmem : p ∈ pids) :
    (p, KillOutcome.notFound) ∈ killBatch env pids ∧
      (killBatch env pids).length = pids.length ∧
      (∀ q ∈ pids, (q, (terminateProcess (env q)).2) ∈ killBatch env pids) := by
  refine ⟨?_, by simp [killBatch], ?_⟩
  · have houtcome : (terminateProcess (env p)).2 = .notFound := by
      simp [terminateProcess, hmiss]
    have hmm :=
      List.mem_map_of_mem (fun q => (q, (terminateProcess (env q)).2)) hmem
    simp only at hmm
    rw [houtcome] at hmm
    simpa [killBatch] using hmm
  · intro q hq
    simpa [killBatch] using
      List.mem_map_of_mem (fun r => (r, (terminateProcess (env r)).2)) hq

/-- C7 witnessed: a one-pid batch over a process table where pid 7 is
absent reports `(7, notFound)` and handles the whole batch. -/
theorem C7_missing_pid_witness :
    (7, KillOutcome.notFound) ∈
        killBatch (fun _ => ⟨false, false, false, false⟩) [7] ∧
      (killBatch (fun _ => ⟨false, false, false, false⟩) [7]).length =
        ([7] : List Nat).length :=
  ⟨(C7_missing_pid_reports_not_found (fun _ => ⟨false, false, false, false⟩)
      [7] 7 rfl (by decide)).1,
    (C7_missing_pid_reports_not_found (fun _ => ⟨false, false, false, false⟩)
      [7] 7 rfl (by decide)).2.1⟩

/-! ## C3 -/

theorem refreshWinGo_eq_dedupSeen (lines : List (List Char))
    (seen : List (List Char × List Char)) :
    refreshWinGo seen lines = dedupSeen seen (lines.filterMap parseListenLine) := by
  induction lines generalizing seen with
  | nil => rfl
  | cons line rest ih =>
    cases hp : parseListenLine line with
    | none => simp [refreshWinGo, List.filterMap_cons, hp, ih]
    | some e =>
      by_cases hk : winKey e ∈ seen
      · simp [refreshWinGo, List.filterMap_cons, hp, dedupSeen, hk, ih]
      · simp [refreshWinGo, List.filterMap_cons, hp, dedupSeen, hk, ih]

theorem dedupSeen_sublist (l : List PortEntry)
    (seen : List (List Char × List Char)) :
    (dedupSeen seen l).Sublist l := by
  induction l generalizing seen with
  | nil => simp [dedupSeen]
  | cons e rest ih =>
    by_cases hk : winKey e ∈ seen
    · simp only [dedupSeen, if_pos hk]
      exact (ih seen).trans (List.sublist_cons_self e rest)
    · simp only [dedupSeen, if_neg hk]
      exact (ih (winKey e :: seen)).cons₂ e

theorem dedupSeen_keys (l : List PortEntry)
    (seen : List (List Char × List Char)) :
    ((dedupSeen seen l).map winKey).Nodup ∧
      ∀ k ∈ (dedupSeen seen l).map winKey, k ∉ seen := by
  induction l generalizing seen with
  | nil => simp [dedupSeen]
  | cons e rest ih =>
    by_cases hk : winKey e ∈ seen
    · simpa [dedupSeen, if_pos hk] using ih seen
    · obtain ⟨hnd, hout⟩ := ih (winKey e :: seen)
      simp only [dedupSeen, if_neg hk, List.map_cons, List.nodup_cons]
      refine ⟨⟨?_, hnd⟩, ?_⟩
      · intro hin
        exact (hout _ hin) (List.mem_cons_self _ _)
      · intro k hkmem
        rcases List.mem_cons.mp hkmem with h | h
        · subst h; exact hk
        · intro hkin
          exact (hout k h) (List.mem_cons_of_mem _ hkin)

theorem dedupSeen_first_wins (l : List PortEntry)
    (seen : List (List Char × List Char)) :
    ∀ e ∈ dedupSeen seen l,
      winKey e ∉ seen ∧
        l.find? (fun x => winKey x == winKey e) = some e := by
  induction l generalizing seen with
  | nil => simp [dedupSeen]
  | cons e0 rest ih =>
    intro e he
    by_cases hk : winKey e0 ∈ seen
    · rw [dedupSeen, if_pos hk] at he
      obtain ⟨hnot, hf⟩ := ih seen e he
      have hne : (winKey e0 == winKey e) = false := by
        rw [beq_eq_false_iff_ne]
        intro hb
        exact hnot (hb ▸ hk)
      refine ⟨hnot, ?_⟩
      simp only [List.find?_cons, hne]
      exact hf
    · rw [dedupSeen, if_neg hk] at he
      rcases List.mem_cons.mp he with h | h
      · subst h
        refine ⟨hk, ?_⟩
        simp only [List.find?_cons, beq_self_eq_true]
      · obtain ⟨hnot, hf⟩ := ih (winKey e0 :: seen) e h
        have hne0 : winKey e ≠ winKey e0 := by
          intro hq
          exact hnot (hq ▸ List.mem_cons_self _ _)
        have hne : (winKey e0 == winKey e) = false := by
          rw [beq_eq_false_iff_ne]
          exact fun hq => hne0 hq.symm
        refine ⟨fun hq => hnot (List.mem_cons_of_mem _ hq), ?_⟩
        simp only [List.find?_cons, hne]
        exact hf

theorem dedupSeen_covers (l : List PortEntry)
    (seen : List (List Char × List Char)) :
    ∀ x ∈ l, winKey x ∈ seen ∨
      ∃ e ∈ dedupSeen seen l, winKey e = winKey x := by
  induction l generalizing seen with
  | nil => simp
  | cons e0 rest ih =>
    intro x hx
    by_cases hk : winKey e0 ∈ seen
    · rw [dedupSeen, if_pos hk]
      rcases List.mem_cons.mp hx with h | h
      · exact Or.inl (h ▸ hk)
      · exact ih seen x h
    · rw [dedupSeen, if_neg hk]
      rcases List.mem_cons.mp hx with h | h
      · exact Or.inr ⟨e0, List.mem_cons_self _ _, by rw [h]⟩
      · rcases ih (winKey e0 :: seen) x h with hin | ⟨e, hemem, hekey⟩
        · rcases List.mem_cons.mp hin with hq | hq
          · exact Or.inr ⟨e0, List.mem_cons_self _ _, hq.symm⟩
          · exact Or.inl hq
        · exact Or.inr ⟨e, List.mem_cons_of_mem _ hemem, hekey⟩

/-- C3: the claim says every refreshed port list is free of duplicate
identity keys.  The plain variant's `_refresh_all_thread` performs no
deduplication at all: feeding it the same raw LISTENING line twice
yields two entries that agree in every field (port, pid, address, and
hence in any identity key built from them). -/
theorem C3_counterexample :
    refreshAllPlain
        ["  TCP    0.0.0.0:8080    0.0.0.0:0    LISTENING    1234".data,
         "  TCP    0.0.0.0:8080    0.0.0.0:0    LISTENING    1234".data] =
      [⟨"8080".data, "0.0.0.0:8080".data, "1234".data⟩,
       ⟨"8080".data, "0.0.0.0:8080".data, "1234".data⟩] ∧
    ¬(refreshAllPlain
        ["  TCP    0.0.0.0:8080    0.0.0.0:0    LISTENING    1234".data,
         "  TCP    0.0.0.0:8080    0.0.0.0:0    LISTENING    1234".data]).Nodup := by
  refine ⟨by decide, by decide⟩

/-- C3 amended: only the Windows variant deduplicates, and it does so by
the coarser key `(port, pid)` (not the full identity key), first
occurrence winning: its refreshed list has pairwise-distinct
`(port, pid)` keys, is a subsequence of the undeduplicated parse, keeps
for each key exactly the first parsed entry carrying it, and drops no
key.  The plain variant keeps duplicates (see the counterexample). -/
theorem C3_windows_dedup_first_wins (lines : List (List Char)) :
    ((refreshAllWin lines).map winKey).Nodup ∧
      (refreshAllWin lines).Sublist (refreshAllPlain lines) ∧
      (∀ e ∈ refreshAllWin lines,
        (refreshAllPlain lines).find? (fun x => winKey x == winKey e) =
          some e) ∧
      (∀ x ∈ refreshAllPlain lines,
        ∃ e ∈ refreshAllWin lines, winKey e = winKey x) := by
  have heq : refreshAllWin lines =
      dedupSeen [] (refreshAllPlain lines) :=
    refreshWinGo_eq_dedupSeen lines []
  refine ⟨?_, ?_, ?_, ?_⟩
  · rw [heq]; exact (dedupSeen_keys _ []).1
  · rw [heq]; exact dedupSeen_sublist _ []
  · intro e he
    rw [heq] at he
    exact (dedupSeen_first_wins _ [] e he).2
  · intro x hx
    rcases dedupSeen_covers (refreshAllPlain lines) [] x hx with h | h
    · exact absurd h (List.not_mem_nil _)
    · rw [heq]; exact h

/-- C3 amended, witnessed: two raw lines sharing `(port, pid)` around a
distinct one collapse to the first occurrences, with distinct keys. -/
theorem C3_windows_dedup_witness :
    ((refreshAllWin
        ["  TCP    0.0.0.0:8080    0.0.0.0:0    LISTENING    1234".data,
         "  TCP    0.0.0.0:9000    0.0.0.0:0    LISTENING    5678".data,
         "  TCP    0.0.0.0:8080    0.0.0.0:0    LISTENING    1234".data]).map
      winKey).Nodup ∧
      (refreshAllPlain
        ["  TCP    0.0.0.0:8080    0.0.0.0:0    LISTENING    1234".data,
         "  TCP    0.0.0.0:9000    0.0.0.0:0    LISTENING    5678".data,
         "  TCP    0.0.0.0:8080    0.0.0.0:0    LISTENING    1234".data]).find?
          (fun x => winKey x ==
            winKey ⟨"8080".data, "0.0.0.0:8080".data, "1234".data⟩) =
        some ⟨"8080".data, "0.0.0.0:8080".data, "1234".data⟩ :=
  ⟨(C3_windows_dedup_first_wins
      ["  TCP    0.0.0.0:8080    0.0.0.0:0    LISTENING    1234".data,
       "  TCP    0.0.0.0:9000    0.0.0.0:0    LISTENING    5678".data,
       "  TCP    0.0.0.0:8080    0.0.0.0:0    LISTENING    1234".data]).1,
    (C3_windows_dedup_first_wins
      ["  TCP    0.0.0.0:8080    0.0.0.0:0    LISTENING    1234".data,
       "  TCP    0.0.0.0:9000    0.0.0.0:0    LISTENING    5678".data,
       "  TCP    0.0.0.0:8080    0.0.0.0:0    LISTENING    1234".data]).2.2.1
      ⟨"8080".data, "0.0.0.0:8080".data, "1234".data⟩ (by decide)⟩

/-! ## C4 -/

instance : IsTotal PortEntry keyLE :=
  ⟨fun x y => Nat.le_total (sortKey x) (sortKey y)⟩

instance : IsTrans PortEntry keyLE :=
  ⟨fun _ _ _ hxy hyz => Nat.le_trans hxy hyz⟩

theorem filter_orderedInsert_key (e : PortEntry) (l : List PortEntry)
    (m : Nat) :
    (List.orderedInsert keyLE e l).filter (fun x => sortKey x == m) =
      if sortKey e = m then e :: l.filter (fun x => sortKey x == m)
      else l.filter (fun x => sortKey x == m) := by
  induction l with
  | nil =>
    by_cases hm : sortKey e = m
    · simp [List.orderedInsert, List.filter, hm]
    · have hb : (sortKey e == m) = false := beq_eq_false_iff_ne.mpr hm
      simp [List.orderedInsert, List.filter, hb, hm]
  | cons b t ih =>
    by_cases hle : keyLE e b
    · rw [List.orderedInsert, if_pos hle]
      by_cases hm : sortKey e = m <;> by_cases hbm : sortKey b = m <;>
        simp [List.filter_cons, hm, hbm]
    · rw [List.orderedInsert, if_neg hle]
      have hlt : sortKey b < sortKey e := Nat.not_le.mp hle
      by_cases hm : sortKey e = m
      · have hbm : sortKey b ≠ m := by omega
        simp [List.filter_cons, ih, hm, hbm]
      · by_cases hbm : sortKey b = m <;>
          simp [List.filter_cons, ih, hm, hbm]

theorem filter_pySortByKey (l : List PortEntry) (m : Nat) :
    (pySortByKey l).filter (fun x => sortKey x == m) =
      l.filter (fun x => sortKey x == m) := by
  induction l with
  | nil => rfl
  | cons e t ih =>
    simp only [pySortByKey, List.insertionSort] at ih ⊢
    rw [filter_orderedInsert_key]
    by_cases hm : sortKey e = m
    · rw [if_pos hm, ih]
      simp [List.filter_cons, hm]
    · rw [if_neg hm, ih]
      simp [List.filter_cons, hm]

/-- C4: the claim says the full table is sorted ascending by numeric
port, with only unparseable ports sorting last.  The sort key is
`int(x) if x.isdigit() else 999999`, and `isdigit` is stricter than
integer parsing: the port string `"+80"` passes the refresh validation
(`int("+80") = 80`, in range) but fails `isdigit`, so it is keyed
999999 and sorted after port 9000 even though its numeric port is 80 —
the output is not ascending by numeric port. -/
theorem C4_counterexample :
    fullTablePlain
        ["  TCP    0.0.0.0:+80     0.0.0.0:0    LISTENING    4321".data,
         "  TCP    0.0.0.0:9000    0.0.0.0:0    LISTENING    5678".data] =
      [⟨"9000".data, "0.0.0.0:9000".data, "5678".data⟩,
       ⟨"+80".data, "0.0.0.0:+80".data, "4321".data⟩] ∧
      pyInt "+80".data = some 80 ∧
      pyInt "9000".data = some 9000 ∧ (80 : Int) < 9000 := by
  refine ⟨by decide, by decide, by decide, by decide⟩

/-- C4 amended: the full-table view is the refresh list stably sorted in
ascending order of the key `int(port) if port.isdigit() else 999999`
(ties and equal keys keep their original relative order, captured by
filter-invariance per key); since every stored all-digit port is at most
65535, digit-string ports sort ascending before any non-digit port
string, but a port that parses as an integer without being all digits
(such as `"+80"`) sorts last instead of by numeric value.  This holds
for both variants. -/
theorem C4_full_table_sorted_stable (lines : List (List Char)) :
    (fullTablePlain lines).Sorted keyLE ∧
      List.Perm (fullTablePlain lines) (refreshAllPlain lines) ∧
      (∀ m, (fullTablePlain lines).filter (fun x => sortKey x == m) =
        (refreshAllPlain lines).filter (fun x => sortKey x == m)) ∧
      (fullTableWin lines).Sorted keyLE ∧
      List.Perm (fullTableWin lines) (refreshAllWin lines) ∧
      (∀ m, (fullTableWin lines).filter (fun x => sortKey x == m) =
        (refreshAllWin lines).filter (fun x => sortKey x == m)) :=
  ⟨List.sorted_insertionSort keyLE _,
    List.perm_insertionSort keyLE _,
    fun m => filter_pySortByKey (refreshAllPlain lines) m,
    List.sorted_insertionSort keyLE _,
    List.perm_insertionSort keyLE _,
    fun m => filter_pySortByKey (refreshAllWin lines) m⟩

end WinPortKill
